import Mathlib

/-!
Shallow embedding of `src/ezbackup.py` (ejoffe/ezbackup).

The program is a snapshot-based backup driver: for each configured
(profile, path) target it assembles an rsync command, and on a zero exit
status it promotes the staging directory `incomplete` to a snapshot named
with the current UTC timestamp, repoints the `current` symlink, and, when
the pre-sync snapshot count reaches the configured cap, moves the oldest
snapshot into a run-wide `junk` directory that is removed at the end of
the run.

Modelling conventions:
* Python strings are `String`; Python's string comparison (lexicographic
  on code points) is `s.data < t.data`, i.e. `List.Lex (· < ·)` on the
  character lists.  We never use Mathlib's `String` order instances in
  definitions because they do not reduce in the kernel.
* The on-disk state of one target's store directory is a `TargetStore`:
  the named snapshot entries, whether the staging entry `incomplete`
  exists, and the `current` symlink's referent.  `os.listdir` order is
  unspecified; `listing` fixes one canonical order (every property proved
  about the listing — count, lexicographic max/min, membership — is order
  independent).
* External effects are inputs: the rsync exit status (`returncode`), the
  wall-clock time (`utcnow`), and the per-target on-disk state are
  parameters of `run_rsync`; `send_email` either succeeds or raises,
  modelled by a boolean.
* Python's `flags += ...` inside `run_rsync` mutates the caller's list;
  this aliasing is modelled by `run_rsync` returning the mutated list
  (`flagsOut`), which the main loop threads into the next call exactly as
  the shared Python object would be.
* Fallible filesystem steps that the program relies on (renaming a
  missing directory would raise) are modelled totally; every theorem that
  depends on such a step carries hypotheses making the step well defined,
  matching the regime in which the Python code runs without raising.
-/

namespace EZBackup

/-- Base rsync flags (module-level `rsync_flags` list). -/
def rsync_flags : List String :=
  ["--archive", "--one-file-system", "--hard-links", "--human-readable",
   "--inplace", "--numeric-ids", "--delete", "--delete-excluded"]

/-- Verbose rsync flags (module-level `rsync_flags_verbose` list). -/
def rsync_flags_verbose : List String :=
  ["--verbose", "--progress", "--itemize-changes"]

/-- One entry of `config['profiles']`. -/
structure Profile where
  username : String
  hostname : String
  dirs : List String
  excludes : List String
deriving Repr, DecidableEq

/-- The parts of `config.json` the core reads: `backup_path`,
`backup_count`, and the optional global `excludes` list (`'excludes' in
config`). -/
structure Config where
  backup_path : String
  backup_count : Nat
  excludes : Option (List String)
deriving Repr, DecidableEq

/-- Python `'--exclude="%s"' % e`. -/
def excludeFlag (e : String) : String := "--exclude=\"" ++ e ++ "\""

/-- Python `path.replace('/', '_')`: the pattern is a single character, so
the replacement is a character map. -/
def pathSub (path : String) : String :=
  ⟨path.data.map fun c => if c = '/' then '_' else c⟩

/-- The target's store directory,
`config['backup_path'] + username + '/' + hostname + '/' + path.replace('/', '_') + '/'`. -/
def base_dir_of (cfg : Config) (profile : Profile) (path : String) : String :=
  cfg.backup_path ++ profile.username ++ "/" ++ profile.hostname ++ "/"
    ++ pathSub path ++ "/"

/-- Loop body of `backup_stats`: skip the entries `incomplete` and
`current`, otherwise bump the count and update the running string
max (`newest`) and min (`oldest`). -/
def statsStep (acc : Nat × String × String) (dir : String) : Nat × String × String :=
  if dir = "incomplete" ∨ dir = "current" then acc
  else (acc.1 + 1,
        if acc.2.1.data < dir.data then dir else acc.2.1,
        if dir.data < acc.2.2.data then dir else acc.2.2)

/-- Python `backup_stats(base_dir)`: fold over the directory listing with
`newest` initialised to `''` and `oldest` initialised to `'Z'`; returns
`(count, newest, oldest)`. -/
def backup_stats (dirs : List String) : Nat × String × String :=
  dirs.foldl statsStep (0, "", "Z")

/-- On-disk state of one target's store directory. -/
structure TargetStore where
  snaps : List String
  staging : Bool
  current : Option String
deriving Repr, DecidableEq

/-- One canonical `os.listdir` order for a target store directory. -/
def listing (st : TargetStore) : List String :=
  st.snaps ++ (if st.staging then ["incomplete"] else [])
    ++ (if st.current.isSome then ["current"] else [])

/-- Python `try: os.remove('current') / except: pass` — removing the
pointer never raises; afterwards no pointer exists. -/
def remove_current (_c : Option String) : Option String := none

/-- Python `os.symlink(timestr, 'current')` right after the removal. -/
def set_current (_c : Option String) (name : String) : Option String := some name

/-- ASCII decimal digit characters. -/
def digitChar (n : Nat) : Char :=
  if n = 0 then '0' else if n = 1 then '1' else if n = 2 then '2'
  else if n = 3 then '3' else if n = 4 then '4' else if n = 5 then '5'
  else if n = 6 then '6' else if n = 7 then '7' else if n = 8 then '8'
  else '9'

/-- Zero-padded fixed-width decimal rendering (most significant digit
first), as produced by `strftime` for `%Y %m %d %H %M %S` on in-range
values. -/
def padNum : Nat → Nat → List Char
  | 0, _ => []
  | w + 1, n => digitChar (n / 10 ^ w % 10) :: padNum w (n % 10 ^ w)

/-- A UTC wall-clock instant as `datetime.utcnow()` exposes it. -/
structure UTCTime where
  year : Nat
  month : Nat
  day : Nat
  hour : Nat
  minute : Nat
  second : Nat
deriving Repr, DecidableEq

/-- Character list of `utcnow.strftime('%Y-%m-%d__%H-%M-%S')`. -/
def timeChars (t : UTCTime) : List Char :=
  padNum 4 t.year
    ++ '-' :: (padNum 2 t.month
    ++ '-' :: (padNum 2 t.day
    ++ '_' :: '_' :: (padNum 2 t.hour
    ++ '-' :: (padNum 2 t.minute
    ++ '-' :: padNum 2 t.second))))

/-- The snapshot name `timestr = utcnow.strftime('%Y-%m-%d__%H-%M-%S')`. -/
def strftime_name (t : UTCTime) : String := ⟨timeChars t⟩

/-- Chronological order on wall-clock instants. -/
def chronoLT (a b : UTCTime) : Prop :=
  a.year < b.year ∨ (a.year = b.year ∧ (a.month < b.month ∨ (a.month = b.month ∧
    (a.day < b.day ∨ (a.day = b.day ∧ (a.hour < b.hour ∨ (a.hour = b.hour ∧
      (a.minute < b.minute ∨ (a.minute = b.minute ∧ a.second < b.second)))))))))

instance (a b : UTCTime) : Decidable (chronoLT a b) := by
  unfold chronoLT; infer_instance

/-- Everything one call of `run_rsync` produces: the target's new on-disk
state, the snapshot names it moved into the run-wide junk directory, the
flag list object as left behind for the caller (Python mutates the list
in place), the rsync command it invoked, and `returncode == 0`. -/
structure SyncOutcome where
  store : TargetStore
  evicted : List String
  flagsOut : List String
  command : List String
  success : Bool
deriving Repr, DecidableEq

/-- Python `run_rsync(config, profile, flags, path)`.  External inputs:
the target's current on-disk state `st`, the clock reading `utcnow`, and
the rsync exit status `returncode`. -/
def run_rsync (cfg : Config) (profile : Profile) (flags : List String)
    (path : String) (st : TargetStore) (utcnow : UTCTime)
    (returncode : Int) : SyncOutcome :=
  let source := profile.username ++ "@" ++ profile.hostname ++ ":" ++ path
  let base_dir := base_dir_of cfg profile path
  let target := base_dir ++ "incomplete" ++ "/"
  -- mkdir_p(target): afterwards the staging directory exists
  let st0 : TargetStore := { st with staging := true }
  -- flags += excludes  (in-place on the caller's list)
  let flags1 := flags ++ profile.excludes.map excludeFlag
  -- (backup_count, newest_backup, oldest_backup) = backup_stats(base_dir)
  let stats := backup_stats (listing st0)
  -- flags += ['--link-dest=%s/%s' % (base_dir, newest_backup)]
  let flags2 := flags1 ++ ["--link-dest=" ++ base_dir ++ "/" ++ stats.2.1]
  let command := ["rsync"] ++ flags2 ++ [source, target]
  if returncode = 0 then
    -- os.rename('incomplete', timestr)
    let timestr := strftime_name utcnow
    let renamed : TargetStore :=
      { snaps := st0.snaps ++ [timestr], staging := false, current := st0.current }
    -- try: os.remove('current') except: pass; os.symlink(timestr, 'current')
    let pointed : TargetStore :=
      { renamed with current := set_current (remove_current renamed.current) timestr }
    if stats.1 ≥ cfg.backup_count then
      -- os.rename(oldest_backup, junk_path)
      { store := { pointed with snaps := pointed.snaps.erase stats.2.2 },
        evicted := [stats.2.2], flagsOut := flags2, command := command,
        success := true }
    else
      { store := pointed, evicted := [], flagsOut := flags2,
        command := command, success := true }
  else
    { store := st0, evicted := [], flagsOut := flags2, command := command,
      success := false }

/-- Flag list assembled in `__main__` before the target loop: base flags,
global excludes when configured, then the optional verbose and dry-run
toggles. -/
def build_flags (cfg : Config) (verbose dry : Bool) : List String :=
  rsync_flags
    ++ (match cfg.excludes with
        | some es => es.map excludeFlag
        | none => [])
    ++ (if verbose then rsync_flags_verbose else [])
    ++ (if dry then ["-n"] else [])

/-- One iteration of the double loop `for profile in profiles: for path in
profile['dirs']`, together with that call's external inputs. -/
structure Job where
  profile : Profile
  path : String
  store : TargetStore
  utcnow : UTCTime
  returncode : Int
deriving Repr, DecidableEq

/-- The (profile, path) pairs the main loop visits, in order. -/
def target_list (profiles : List Profile) : List (Profile × String) :=
  profiles.flatMap fun p => p.dirs.map fun d => (p, d)

/-- The target loop of `__main__`:
`success = run_rsync(config, profile, flags, path) and success`, with the
flag list object threaded through the calls because each call mutates it
in place.  Returns (per-target outcomes, final flag list, final
`success`). -/
def process_targets (cfg : Config) (flags : List String) (success : Bool) :
    List Job → List SyncOutcome × List String × Bool
  | [] => ([], flags, success)
  | j :: rest =>
    let o := run_rsync cfg j.profile flags j.path j.store j.utcnow j.returncode
    let r := process_targets cfg o.flagsOut (o.success && success) rest
    (o :: r.1, r.2.1, r.2.2)

/-- Observable end-of-run state of `__main__`. -/
structure MainResult where
  outcomes : List SyncOutcome
  success : Bool
  junk : List String
  junkDeleted : Bool
  notified : Bool
deriving Repr, DecidableEq

/-- Tail of `__main__` after config parsing: build the flag list, create
the junk directory, run every target, optionally send the report email
(an exception from `send_email` propagates and aborts the process), and
finally `shutil.rmtree` the junk directory.  `junk` collects the snapshot
names moved into `backup_path/junk` during the run; `junkDeleted` records
whether the final `rmtree` was reached. -/
def ezbackup_main (cfg : Config) (verbose dry : Bool) (jobs : List Job)
    (emailTo : Option String) (emailRaises : Bool) : MainResult :=
  let flags := build_flags cfg verbose dry
  let r := process_targets cfg flags true jobs
  let outcomes := r.1
  let success := r.2.2
  let junk := outcomes.flatMap (·.evicted)
  match emailTo with
  | none =>
    { outcomes := outcomes, success := success, junk := junk,
      junkDeleted := true, notified := false }
  | some _ =>
    if emailRaises then
      { outcomes := outcomes, success := success, junk := junk,
        junkDeleted := false, notified := false }
    else
      { outcomes := outcomes, success := success, junk := junk,
        junkDeleted := true, notified := true }

/-- Split a character path into its nonempty `/`-separated segments;
`cur` is the segment under construction, reversed.  Two path strings name
the same directory in POSIX exactly when their segment lists agree (for
absolute, link-free paths): duplicate and trailing slashes are
irrelevant. -/
def pathSegsAux (cur : List Char) : List Char → List (List Char)
  | [] => if cur = [] then [] else [cur.reverse]
  | c :: rest =>
    if c = '/' then
      if cur = [] then pathSegsAux [] rest
      else cur.reverse :: pathSegsAux [] rest
    else pathSegsAux (c :: cur) rest

/-- Normal form of a path: its list of nonempty segments. -/
def normalizePath (p : String) : List (List Char) := pathSegsAux [] p.data

/-- The directories guaranteed to exist after `mkdir_p(p)`: every
ancestor of `p`, in normal form. -/
def mkdir_p_dirs (p : String) : List (List (List Char)) :=
  let segs := normalizePath p
  (List.range segs.length).map fun i => segs.take (i + 1)

/-- A path exists in a set of directories given in normal form. -/
def dirExists (fs : List (List (List Char))) (p : String) : Prop :=
  normalizePath p ∈ fs

/-- Running maximum in Python string order, seeded like `backup_stats`
seeds `newest`. -/
def maxAcc (a : String) : List String → String
  | [] => a
  | d :: l => maxAcc (if a.data < d.data then d else a) l

/-- Running minimum in Python string order, seeded like `backup_stats`
seeds `oldest`. -/
def minAcc (a : String) : List String → String
  | [] => a
  | d :: l => minAcc (if d.data < a.data then d else a) l

/-- The flag list as it stands after one `run_rsync` call mutated it:
the incoming flags, the per-target excludes, then the baseline flag. -/
def flags_after (cfg : Config) (pr : Profile) (flags : List String)
    (path : String) (st : TargetStore) : List String :=
  flags ++ pr.excludes.map excludeFlag
    ++ ["--link-dest=" ++ base_dir_of cfg pr path ++ "/"
         ++ (backup_stats (listing { st with staging := true })).2.1]

/-- The rsync command one `run_rsync` call invokes. -/
def command_of (cfg : Config) (pr : Profile) (flags : List String)
    (path : String) (st : TargetStore) : List String :=
  ["rsync"] ++ flags_after cfg pr flags path st
    ++ [pr.username ++ "@" ++ pr.hostname ++ ":" ++ path,
        base_dir_of cfg pr path ++ "incomplete" ++ "/"]

/-! Concrete fixtures used by witnesses and counterexamples. -/

/-- A two-snapshot configuration with retention cap 2. -/
def cfgW : Config := { backup_path := "/b/", backup_count := 2, excludes := none }

/-- A plain profile with no per-target excludes. -/
def prW : Profile := { username := "u", hostname := "h", dirs := ["/d"], excludes := [] }

/-- A profile with one per-target exclude pattern. -/
def prX : Profile :=
  { username := "alice", hostname := "h1", dirs := ["/d1"], excludes := ["secret"] }

/-- A second profile with no excludes of its own. -/
def prY : Profile := { username := "bob", hostname := "h2", dirs := ["/d2"], excludes := [] }

/-- A store with no snapshots yet. -/
def stEmpty : TargetStore := { snaps := [], staging := false, current := none }

/-- A store already holding two snapshots, `current` pointing at the
newer one. -/
def stTwo : TargetStore :=
  { snaps := ["2021-01-01__00-00-00", "2021-01-02__00-00-00"], staging := false,
    current := some "2021-01-02__00-00-00" }

/-- A clock reading later than both snapshots of `stTwo`. -/
def utc3 : UTCTime := ⟨2021, 1, 3, 0, 0, 0⟩

/-- A job for `prW` over `stTwo` whose rsync invocation succeeds. -/
def jW : Job :=
  { profile := prW, path := "/d", store := stTwo, utcnow := utc3, returncode := 0 }

/-- A job over a fresh store whose rsync invocation fails with status 23. -/
def jFail : Job :=
  { profile := prW, path := "/d", store := stEmpty, utcnow := utc3, returncode := 23 }

/-- A successful job for the profile with an exclude pattern. -/
def jX : Job :=
  { profile := prX, path := "/d1", store := stEmpty, utcnow := utc3, returncode := 0 }

/-- A successful job for the profile without excludes. -/
def jY : Job :=
  { profile := prY, path := "/d2", store := stEmpty, utcnow := utc3, returncode := 0 }

/-!
Helper lemmas: lexicographic order on character lists and on zero-padded
decimal renderings.
-/

/-- The empty character list is least. -/
theorem nil_le_chars (l : List Char) : ([] : List Char) ≤ l := by
  cases l with
  | nil => exact le_refl _
  | cons a l => exact le_of_lt (List.nil_lt_cons a l)

/-- Appending suffixes preserves a lexicographic comparison of two
equal-length lists. -/
theorem lex_append_left {r : Char → Char → Prop} (c d : List Char) :
    ∀ {a b : List Char}, List.Lex r a b → a.length = b.length →
      List.Lex r (a ++ c) (b ++ d)
  | [], _ :: _, _, hlen => by simp at hlen
  | _ :: _, [], h, _ => absurd h (List.Lex.not_nil_right _ _)
  | x :: a, y :: b, h, hlen => by
    cases h with
    | cons h => exact List.Lex.cons (lex_append_left c d h (by simpa using hlen))
    | rel h => exact List.Lex.rel h

/-- A lexicographic comparison is preserved under a common prefix. -/
theorem lex_append_right {r : Char → Char → Prop} (a : List Char)
    {c d : List Char} (h : List.Lex r c d) : List.Lex r (a ++ c) (a ++ d) := by
  induction a with
  | nil => simpa
  | cons x a ih => exact List.Lex.cons ih

/-- Decimal digit characters are ordered like their digits. -/
theorem digitChar_lt {a b : Nat} (hb : b < 10) (h : a < b) :
    digitChar a < digitChar b := by
  interval_cases b <;> interval_cases a <;> decide

/-- Every decimal digit character precedes `'Z'`. -/
theorem digitChar_lt_Z (n : Nat) : digitChar n < 'Z' := by
  unfold digitChar
  split_ifs <;> decide

/-- A zero-padded rendering has exactly its requested width. -/
theorem padNum_length (w : Nat) : ∀ n, (padNum w n).length = w := by
  induction w with
  | zero => intro n; rfl
  | succ w ih => intro n; simp [padNum, ih]

/-- Zero-padded renderings of a fixed width compare like the numbers they
render. -/
theorem padNum_lt {w a b : Nat} (hb : b < 10 ^ w) (h : a < b) :
    List.Lex (· < ·) (padNum w a) (padNum w b) := by
  induction w generalizing a b with
  | zero =>
    exact absurd h (by omega)
  | succ w ih =>
    have hpow : 0 < 10 ^ w := Nat.pos_pow_of_pos w (by omega)
    have hb10 : b / 10 ^ w < 10 := by
      apply Nat.div_lt_of_lt_mul
      calc b < 10 ^ (w + 1) := hb
        _ = 10 ^ w * 10 := by rw [pow_succ]
    have ha10 : a / 10 ^ w < 10 := by
      apply Nat.div_lt_of_lt_mul
      calc a < b := h
        _ < 10 ^ (w + 1) := hb
        _ = 10 ^ w * 10 := by rw [pow_succ]
    rcases Nat.lt_or_ge (a / 10 ^ w) (b / 10 ^ w) with hq | hq
    · apply List.Lex.rel
      rw [Nat.mod_eq_of_lt ha10, Nat.mod_eq_of_lt hb10]
      exact digitChar_lt hb10 hq
    · have hq' : a / 10 ^ w = b / 10 ^ w :=
        le_antisymm (Nat.div_le_div_right h.le) hq
      have hda := Nat.div_add_mod a (10 ^ w)
      have hdb := Nat.div_add_mod b (10 ^ w)
      rw [hq'] at hda
      have hmod : a % 10 ^ w < b % 10 ^ w := by omega
      show List.Lex (· < ·)
        (digitChar (a / 10 ^ w % 10) :: padNum w (a % 10 ^ w))
        (digitChar (b / 10 ^ w % 10) :: padNum w (b % 10 ^ w))
      rw [hq']
      exact List.Lex.cons (ih (Nat.mod_lt b hpow) hmod)

/-- C9: for UTC instants `t1` earlier than `t2`, each within the
four-digit-year range and with calendar fields of their usual widths, the
snapshot name `strftime('%Y-%m-%d__%H-%M-%S')` of `t1` is
lexicographically (code-point order, as Python compares strings) smaller
than that of `t2`; hence lexicographic order on promoted snapshot names
equals chronological order of promotion. -/
theorem c9_name_monotonicity (t1 t2 : UTCTime)
    (hy1 : 1000 ≤ t1.year) (hy2 : t1.year < 10000)
    (hy3 : 1000 ≤ t2.year) (hy4 : t2.year < 10000)
    (hmo1 : t1.month < 100) (hmo2 : t2.month < 100)
    (hd1 : t1.day < 100) (hd2 : t2.day < 100)
    (hh1 : t1.hour < 100) (hh2 : t2.hour < 100)
    (hmi1 : t1.minute < 100) (hmi2 : t2.minute < 100)
    (hs1 : t1.second < 100) (hs2 : t2.second < 100)
    (hlt : chronoLT t1 t2) :
    (strftime_name t1).data < (strftime_name t2).data := by
  show List.Lex (· < ·) (timeChars t1) (timeChars t2)
  unfold chronoLT at hlt
  unfold timeChars
  rcases hlt with hy | ⟨ey, hmo | ⟨emo, hd | ⟨ed, hh | ⟨eh, hmi | ⟨emi, hs⟩⟩⟩⟩⟩
  · exact lex_append_left _ _ (padNum_lt (by omega) hy) (by simp [padNum_length])
  · rw [ey]
    apply lex_append_right
    apply List.Lex.cons
    exact lex_append_left _ _ (padNum_lt (by omega) hmo) (by simp [padNum_length])
  · rw [ey, emo]
    apply lex_append_right
    apply List.Lex.cons
    apply lex_append_right
    apply List.Lex.cons
    exact lex_append_left _ _ (padNum_lt (by omega) hd) (by simp [padNum_length])
  · rw [ey, emo, ed]
    apply lex_append_right
    apply List.Lex.cons
    apply lex_append_right
    apply List.Lex.cons
    apply lex_append_right
    apply List.Lex.cons
    apply List.Lex.cons
    exact lex_append_left _ _ (padNum_lt (by omega) hh) (by simp [padNum_length])
  · rw [ey, emo, ed, eh]
    apply lex_append_right
    apply List.Lex.cons
    apply lex_append_right
    apply List.Lex.cons
    apply lex_append_right
    apply List.Lex.cons
    apply List.Lex.cons
    apply lex_append_right
    apply List.Lex.cons
    exact lex_append_left _ _ (padNum_lt (by omega) hmi) (by simp [padNum_length])
  · rw [ey, emo, ed, eh, emi]
    apply lex_append_right
    apply List.Lex.cons
    apply lex_append_right
    apply List.Lex.cons
    apply lex_append_right
    apply List.Lex.cons
    apply List.Lex.cons
    apply lex_append_right
    apply List.Lex.cons
    apply lex_append_right
    apply List.Lex.cons
    exact padNum_lt (by omega) hs

/-- Witness for C9 at two concrete instants one second apart. -/
theorem c9_name_monotonicity_witness :
    (strftime_name ⟨2021, 5, 1, 12, 0, 0⟩).data
      < (strftime_name ⟨2021, 5, 1, 12, 0, 1⟩).data :=
  c9_name_monotonicity ⟨2021, 5, 1, 12, 0, 0⟩ ⟨2021, 5, 1, 12, 0, 1⟩
    (by decide) (by decide) (by decide) (by decide) (by decide) (by decide)
    (by decide) (by decide) (by decide) (by decide) (by decide) (by decide)
    (by decide) (by decide) (by decide)

/-!
Helper lemmas: characterising `backup_stats`.
-/

/-- Entries named `incomplete` or `current` leave the statistics fold
unchanged. -/
theorem foldl_statsStep_skip (metas : List String)
    (h : ∀ d ∈ metas, d = "incomplete" ∨ d = "current") :
    ∀ acc, metas.foldl statsStep acc = acc := by
  induction metas with
  | nil => intro acc; rfl
  | cons d l ih =>
    intro acc
    have hd : d = "incomplete" ∨ d = "current" := h d (by simp)
    rw [List.foldl_cons, statsStep, if_pos hd]
    exact ih (fun x hx => h x (by simp [hx])) acc

/-- On a listing without the two reserved names, the statistics fold
counts the entries and tracks the running string max and min. -/
theorem foldl_statsStep_clean (l : List String) :
    ∀ acc : Nat × String × String,
      (∀ d ∈ l, d ≠ "incomplete" ∧ d ≠ "current") →
      l.foldl statsStep acc = (acc.1 + l.length, maxAcc acc.2.1 l, minAcc acc.2.2 l) := by
  induction l with
  | nil => intro acc _; simp [maxAcc, minAcc]
  | cons d l ih =>
    intro acc hcl
    have hd := hcl d (by simp)
    have hstep : statsStep acc d
        = (acc.1 + 1, if acc.2.1.data < d.data then d else acc.2.1,
           if d.data < acc.2.2.data then d else acc.2.2) := by
      rw [statsStep, if_neg (by simp [hd.1, hd.2])]
    rw [List.foldl_cons, hstep, ih _ (fun x hx => hcl x (by simp [hx]))]
    have hc : acc.1 + 1 + l.length = acc.1 + (d :: l).length := by
      simp; omega
    simp only [maxAcc, minAcc, hc]

/-- The result of the statistics fold started from `newest = ''`,
`oldest = 'Z'` over a well-formed store listing. -/
theorem backup_stats_listing (st : TargetStore)
    (hWF : ∀ d ∈ st.snaps, d ≠ "incomplete" ∧ d ≠ "current") :
    backup_stats (listing st)
      = (st.snaps.length, maxAcc "" st.snaps, minAcc "Z" st.snaps) := by
  unfold backup_stats listing
  rw [List.foldl_append, List.foldl_append,
      foldl_statsStep_skip _ (by split <;> simp),
      foldl_statsStep_skip _ (by split <;> simp),
      foldl_statsStep_clean _ _ hWF]
  simp

/-- The running maximum is the seed or one of the entries. -/
theorem maxAcc_mem (a : String) (l : List String) : maxAcc a l ∈ a :: l := by
  induction l generalizing a with
  | nil => simp [maxAcc]
  | cons d l ih =>
    simp only [maxAcc]
    rcases List.mem_cons.1 (ih (if a.data < d.data then d else a)) with h | h
    · rw [h]
      split
      · simp
      · simp
    · simp [List.mem_cons.2 (Or.inr (List.mem_cons.2 (Or.inr h)))]

/-- The seed never exceeds the running maximum. -/
theorem le_maxAcc (a : String) (l : List String) : a.data ≤ (maxAcc a l).data := by
  induction l generalizing a with
  | nil => simp [maxAcc]
  | cons d l ih =>
    simp only [maxAcc]
    refine le_trans ?_ (ih _)
    split
    · exact le_of_lt ‹_›
    · exact le_refl _

/-- No entry exceeds the running maximum. -/
theorem le_maxAcc_of_mem {x a : String} {l : List String} (hx : x ∈ l) :
    x.data ≤ (maxAcc a l).data := by
  induction l generalizing a with
  | nil => cases hx
  | cons d l ih =>
    simp only [maxAcc]
    rcases List.mem_cons.1 hx with rfl | hx
    · refine le_trans ?_ (le_maxAcc _ l)
      split
      · exact le_refl _
      · exact le_of_not_lt ‹_›
    · exact ih hx

/-- The running minimum is the seed or one of the entries. -/
theorem minAcc_mem (a : String) (l : List String) : minAcc a l ∈ a :: l := by
  induction l generalizing a with
  | nil => simp [minAcc]
  | cons d l ih =>
    simp only [minAcc]
    rcases List.mem_cons.1 (ih (if d.data < a.data then d else a)) with h | h
    · rw [h]
      split
      · simp
      · simp
    · simp [List.mem_cons.2 (Or.inr (List.mem_cons.2 (Or.inr h)))]

/-- The running minimum never exceeds the seed. -/
theorem minAcc_le (a : String) (l : List String) : (minAcc a l).data ≤ a.data := by
  induction l generalizing a with
  | nil => simp [minAcc]
  | cons d l ih =>
    simp only [minAcc]
    refine le_trans (ih _) ?_
    split
    · exact le_of_lt ‹_›
    · exact le_refl _

/-- The running minimum never exceeds any entry. -/
theorem minAcc_le_of_mem {x a : String} {l : List String} (hx : x ∈ l) :
    (minAcc a l).data ≤ x.data := by
  induction l generalizing a with
  | nil => cases hx
  | cons d l ih =>
    simp only [minAcc]
    rcases List.mem_cons.1 hx with rfl | hx
    · refine le_trans (minAcc_le _ l) ?_
      split
      · exact le_refl _
      · exact le_of_not_lt ‹_›
    · exact ih hx

/-- A string with no characters is the empty string. -/
theorem str_eq_empty {y : String} (h : y.data = []) : y = "" := by
  cases y with
  | mk d =>
    have hd : d = [] := h
    subst hd
    rfl

/-- On a nonempty listing the `newest` fold result is one of the
entries. -/
theorem maxAcc_empty_mem {l : List String} (hl : l ≠ []) : maxAcc "" l ∈ l := by
  rcases List.mem_cons.1 (maxAcc_mem "" l) with h | h
  · rcases List.exists_mem_of_ne_nil l hl with ⟨y, hy⟩
    have h1 : y.data ≤ (maxAcc "" l).data := le_maxAcc_of_mem hy
    rw [h] at h1
    have h2 : y = "" := str_eq_empty (le_antisymm h1 (nil_le_chars _))
    rw [h, ← h2]
    exact hy
  · exact h

/-- On a nonempty listing whose entries all precede `'Z'`, the `oldest`
fold result is one of the entries. -/
theorem minAcc_Z_mem {l : List String} (hl : l ≠ [])
    (hz : ∀ x ∈ l, x.data < "Z".data) : minAcc "Z" l ∈ l := by
  rcases List.mem_cons.1 (minAcc_mem "Z" l) with h | h
  · exfalso
    rcases List.exists_mem_of_ne_nil l hl with ⟨y, hy⟩
    have h1 : (minAcc "Z" l).data ≤ y.data := minAcc_le_of_mem hy
    rw [h] at h1
    exact absurd (lt_of_le_of_lt h1 (hz y hy)) (lt_irrefl _)
  · exact h

/-- C4 counterexample: on a store holding only the staging entry and the
pointer entry, `backup_stats` returns the `oldest` sentinel as `'Z'`,
not as the empty string the claim asserts. -/
theorem c4_counterexample :
    backup_stats
        (listing { snaps := [], staging := true, current := some "2021-01-01__00-00-00" })
        = (0, "", "Z")
      ∧ ((0, "", "Z") : Nat × String × String) ≠ (0, "", "") := by
  constructor
  · rfl
  · decide

/-- C4 (amended): for every listing containing no entries other than
possibly `incomplete` and `current`, `backup_stats` returns count `0`,
`newest` as the empty string, and `oldest` as the sentinel `'Z'`. -/
theorem c4_empty_store_amended (dirs : List String)
    (h : ∀ d ∈ dirs, d = "incomplete" ∨ d = "current") :
    backup_stats dirs = (0, "", "Z") := by
  unfold backup_stats
  rw [foldl_statsStep_skip dirs h]

/-- Witness for C4 (amended) on the listing `['incomplete', 'current']`. -/
theorem c4_empty_store_amended_witness :
    backup_stats ["incomplete", "current"] = (0, "", "Z") :=
  c4_empty_store_amended ["incomplete", "current"] (by decide)

/-!
Helper lemmas: reducing `run_rsync` on its three control-flow paths.
-/

/-- Success path of `run_rsync` with the retention cap reached: promote
the staging area, repoint `current`, move the `oldest` fold result into
the junk directory. -/
theorem run_rsync_zero_evict (cfg : Config) (pr : Profile) (flags : List String)
    (path : String) (st : TargetStore) (utc : UTCTime)
    (hge : (backup_stats (listing { st with staging := true })).1 ≥ cfg.backup_count) :
    run_rsync cfg pr flags path st utc 0 =
      { store := { snaps := (st.snaps ++ [strftime_name utc]).erase
                     (backup_stats (listing { st with staging := true })).2.2,
                   staging := false, current := some (strftime_name utc) },
        evicted := [(backup_stats (listing { st with staging := true })).2.2],
        flagsOut := flags_after cfg pr flags path st,
        command := command_of cfg pr flags path st,
        success := true } := by
  simp only [run_rsync, remove_current, set_current, flags_after, command_of]
  rw [if_pos trivial, if_pos hge]

/-- Success path of `run_rsync` with the retention cap not yet reached:
promote and repoint, no eviction. -/
theorem run_rsync_zero_keep (cfg : Config) (pr : Profile) (flags : List String)
    (path : String) (st : TargetStore) (utc : UTCTime)
    (hlt : (backup_stats (listing { st with staging := true })).1 < cfg.backup_count) :
    run_rsync cfg pr flags path st utc 0 =
      { store := { snaps := st.snaps ++ [strftime_name utc],
                   staging := false, current := some (strftime_name utc) },
        evicted := [],
        flagsOut := flags_after cfg pr flags path st,
        command := command_of cfg pr flags path st,
        success := true } := by
  simp only [run_rsync, remove_current, set_current, flags_after, command_of]
  rw [if_pos trivial, if_neg (not_le.2 hlt)]

/-- Failure path of `run_rsync`: only the `mkdir_p` of the staging area
has touched the store. -/
theorem run_rsync_fail (cfg : Config) (pr : Profile) (flags : List String)
    (path : String) (st : TargetStore) (utc : UTCTime) {rc : Int} (hrc : rc ≠ 0) :
    run_rsync cfg pr flags path st utc rc =
      { store := { st with staging := true },
        evicted := [],
        flagsOut := flags_after cfg pr flags path st,
        command := command_of cfg pr flags path st,
        success := false } := by
  simp only [run_rsync, flags_after, command_of]
  rw [if_neg hrc]

/-- C1: over a well-formed store (snapshot names distinct from the two
reserved entries and preceding `'Z'`, fresh timestamp), a successful
synchronization (exit status 0) behaves as follows: the pre-sync count
reported by `backup_stats` is the number of named snapshots; if that
count reaches the cap `backup_count`, exactly one snapshot is moved into
the run-wide quarantine list, namely the one whose name is
lexicographically smallest among those present before the run, and
nothing else is removed; if the count is strictly below the cap, no
eviction occurs and the target ends with count + 1 named snapshots. -/
theorem c1_retention (cfg : Config) (pr : Profile) (flags : List String)
    (path : String) (st : TargetStore) (utc : UTCTime)
    (hcap : 1 ≤ cfg.backup_count)
    (hWF : ∀ d ∈ st.snaps, d ≠ "incomplete" ∧ d ≠ "current" ∧ d.data < "Z".data)
    (hfresh : strftime_name utc ∉ st.snaps) :
    (backup_stats (listing { st with staging := true })).1 = st.snaps.length
      ∧ (st.snaps.length ≥ cfg.backup_count →
          (run_rsync cfg pr flags path st utc 0).evicted
              = [(backup_stats (listing { st with staging := true })).2.2]
            ∧ (backup_stats (listing { st with staging := true })).2.2 ∈ st.snaps
            ∧ (∀ x ∈ st.snaps,
                ((backup_stats (listing { st with staging := true })).2.2).data ≤ x.data)
            ∧ (run_rsync cfg pr flags path st utc 0).store.snaps
                = st.snaps.erase
                    (backup_stats (listing { st with staging := true })).2.2
                    ++ [strftime_name utc])
      ∧ (st.snaps.length < cfg.backup_count →
          (run_rsync cfg pr flags path st utc 0).evicted = []
            ∧ (run_rsync cfg pr flags path st utc 0).store.snaps
                = st.snaps ++ [strftime_name utc]
            ∧ (run_rsync cfg pr flags path st utc 0).store.snaps.length
                = st.snaps.length + 1) := by
  have hWF' : ∀ d ∈ st.snaps, d ≠ "incomplete" ∧ d ≠ "current" :=
    fun d hd => ⟨(hWF d hd).1, (hWF d hd).2.1⟩
  have hstats := backup_stats_listing { st with staging := true } hWF'
  refine ⟨by rw [hstats], ?_, ?_⟩
  · intro hge
    have hge' : (backup_stats (listing { st with staging := true })).1
        ≥ cfg.backup_count := by rw [hstats]; exact hge
    have hne : st.snaps ≠ [] := by
      intro h
      rw [h] at hge
      simp at hge
      omega
    have hmin : minAcc "Z" st.snaps ∈ st.snaps :=
      minAcc_Z_mem hne (fun x hx => (hWF x hx).2.2)
    have holdest : (backup_stats (listing { st with staging := true })).2.2
        = minAcc "Z" st.snaps := by rw [hstats]
    rw [run_rsync_zero_evict cfg pr flags path st utc hge']
    refine ⟨rfl, ?_, ?_, ?_⟩
    · rw [holdest]; exact hmin
    · intro x hx
      rw [holdest]
      exact minAcc_le_of_mem hx
    · show (st.snaps ++ [strftime_name utc]).erase _ = _
      rw [holdest]
      exact List.erase_append_left _ hmin
  · intro hlt
    have hlt' : (backup_stats (listing { st with staging := true })).1
        < cfg.backup_count := by rw [hstats]; exact hlt
    rw [run_rsync_zero_keep cfg pr flags path st utc hlt']
    exact ⟨rfl, rfl, by simp⟩

/-- Witness for C1: at the two-snapshot store with cap 2, the successful
sync evicts exactly the `oldest` fold result. -/
theorem c1_retention_witness :
    (run_rsync cfgW prW [] "/d" stTwo utc3 0).evicted
        = [(backup_stats (listing { stTwo with staging := true })).2.2] :=
  ((c1_retention cfgW prW [] "/d" stTwo utc3 (by decide) (by decide)
      (by decide)).2.1 (by decide)).1

/-!
Helper lemmas: the main target loop and the end of `__main__`.
-/

/-- Processing a concatenation of job lists processes the first list,
then the second with the threaded flag list and accumulator. -/
theorem process_targets_append (cfg : Config) (js1 : List Job) :
    ∀ (flags : List String) (b : Bool) (js2 : List Job),
      process_targets cfg flags b (js1 ++ js2)
        = ((process_targets cfg flags b js1).1
             ++ (process_targets cfg (process_targets cfg flags b js1).2.1
                   (process_targets cfg flags b js1).2.2 js2).1,
           (process_targets cfg (process_targets cfg flags b js1).2.1
               (process_targets cfg flags b js1).2.2 js2).2.1,
           (process_targets cfg (process_targets cfg flags b js1).2.1
               (process_targets cfg flags b js1).2.2 js2).2.2) := by
  induction js1 with
  | nil => intro flags b js2; simp [process_targets]
  | cons j js ih =>
    intro flags b js2
    have hcons : (j :: js) ++ js2 = j :: (js ++ js2) := rfl
    rw [hcons]
    simp only [process_targets]
    rw [ih]
    rfl

/-- The final `success` accumulator is the conjunction of all outcome
flags with the initial accumulator. -/
theorem process_targets_success_eq (cfg : Config) (js : List Job) :
    ∀ (flags : List String) (b : Bool),
      (process_targets cfg flags b js).2.2
        = (((process_targets cfg flags b js).1.all fun o => o.success) && b) := by
  induction js with
  | nil => intro flags b; simp [process_targets]
  | cons j js ih =>
    intro flags b
    simp only [process_targets, List.all_cons]
    rw [ih]
    generalize (run_rsync cfg j.profile flags j.path j.store j.utcnow j.returncode).success = a
    generalize ((process_targets cfg _ (a && b) js).1.all fun o => o.success) = c
    cases a <;> cases b <;> cases c <;> rfl

/-- One outcome per job, regardless of anything else. -/
theorem process_targets_length (cfg : Config) (js : List Job) :
    ∀ (flags : List String) (b : Bool),
      (process_targets cfg flags b js).1.length = js.length := by
  induction js with
  | nil => intro flags b; rfl
  | cons j js ih =>
    intro flags b
    simp only [process_targets, List.length_cons, ih]

/-- The outcome list and the threaded flag list do not depend on the
`success` accumulator. -/
theorem process_targets_indep (cfg : Config) (js : List Job) :
    ∀ (flags : List String) (b c : Bool),
      (process_targets cfg flags b js).1 = (process_targets cfg flags c js).1
        ∧ (process_targets cfg flags b js).2.1 = (process_targets cfg flags c js).2.1 := by
  induction js with
  | nil => intro flags b c; exact ⟨rfl, rfl⟩
  | cons j js ih =>
    intro flags b c
    simp only [process_targets]
    exact ⟨by rw [(ih _ _ _).1], (ih _ _ _).2⟩

/-- The run's `success` field is the target loop's final accumulator. -/
theorem ezbackup_main_success (cfg : Config) (v d : Bool) (jobs : List Job)
    (e : Option String) (er : Bool) :
    (ezbackup_main cfg v d jobs e er).success
      = (process_targets cfg (build_flags cfg v d) true jobs).2.2 := by
  unfold ezbackup_main
  cases e with
  | none => rfl
  | some x => by_cases her : er <;> simp [her]

/-- The run's outcome list is the target loop's outcome list. -/
theorem ezbackup_main_outcomes (cfg : Config) (v d : Bool) (jobs : List Job)
    (e : Option String) (er : Bool) :
    (ezbackup_main cfg v d jobs e er).outcomes
      = (process_targets cfg (build_flags cfg v d) true jobs).1 := by
  unfold ezbackup_main
  cases e with
  | none => rfl
  | some x => by_cases her : er <;> simp [her]

/-- C5: a synchronization whose engine exits nonzero creates no new
snapshot, does not update the current pointer, performs no eviction,
leaves the staging area present under its unchanged name, returns
failure, and — in whatever run it occurs — forces the run's aggregate
result to false. -/
theorem c5_failure_atomicity (cfg : Config) (pr : Profile) (flags : List String)
    (path : String) (st : TargetStore) (utc : UTCTime) (rc : Int) (hrc : rc ≠ 0) :
    (run_rsync cfg pr flags path st utc rc).store.snaps = st.snaps
      ∧ (run_rsync cfg pr flags path st utc rc).store.current = st.current
      ∧ (run_rsync cfg pr flags path st utc rc).store.staging = true
      ∧ (run_rsync cfg pr flags path st utc rc).evicted = []
      ∧ (run_rsync cfg pr flags path st utc rc).success = false
      ∧ ∀ (v d : Bool) (js1 js2 : List Job) (j : Job) (e : Option String) (er : Bool),
          j.returncode = rc → j.profile = pr → j.path = path → j.store = st
            → j.utcnow = utc →
          (ezbackup_main cfg v d (js1 ++ j :: js2) e er).success = false := by
  rw [run_rsync_fail cfg pr flags path st utc hrc]
  refine ⟨rfl, rfl, rfl, rfl, rfl, ?_⟩
  intro v d js1 js2 j e er hj hjp hjpath hjst hjutc
  rw [ezbackup_main_success, process_targets_append]
  set F := (process_targets cfg (build_flags cfg v d) true js1).2.1 with hF
  set B := (process_targets cfg (build_flags cfg v d) true js1).2.2 with hB
  have hfail : (run_rsync cfg j.profile F j.path j.store j.utcnow j.returncode).success
      = false := by
    rw [hj, run_rsync_fail cfg j.profile F j.path j.store j.utcnow hrc]
  show (process_targets cfg F B (j :: js2)).2.2 = false
  simp only [process_targets]
  rw [process_targets_success_eq, hfail]
  simp

/-- Witness for C5 at a concrete failing job (exit status 23). -/
theorem c5_failure_atomicity_witness :
    (run_rsync cfgW prW [] "/d" stEmpty utc3 23).success = false :=
  (c5_failure_atomicity cfgW prW [] "/d" stEmpty utc3 23 (by decide)).2.2.2.2.1

/-- Every formatted snapshot name starts with a digit character, hence
precedes `'Z'` in code-point order. -/
theorem strftime_lt_Z (t : UTCTime) : (strftime_name t).data < "Z".data := by
  show List.Lex (· < ·) (timeChars t) ['Z']
  have h4 : padNum 4 t.year
      = digitChar (t.year / 10 ^ 3 % 10) :: padNum 3 (t.year % 10 ^ 3) := rfl
  unfold timeChars
  rw [h4, List.cons_append]
  exact List.Lex.rel (digitChar_lt_Z _)

/-- C6: over a well-formed store with a fresh timestamp, after a
successful sync the current pointer resolves to the name of the snapshot
created by that sync, which is among the named snapshots; the update goes
through removal followed by creation, and removing an absent pointer is a
no-op, never an error. -/
theorem c6_current_pointer (cfg : Config) (pr : Profile) (flags : List String)
    (path : String) (st : TargetStore) (utc : UTCTime)
    (hWF : ∀ d ∈ st.snaps, d ≠ "incomplete" ∧ d ≠ "current" ∧ d.data < "Z".data)
    (hfresh : strftime_name utc ∉ st.snaps) :
    (run_rsync cfg pr flags path st utc 0).store.current
        = some (strftime_name utc)
      ∧ strftime_name utc ∈ (run_rsync cfg pr flags path st utc 0).store.snaps
      ∧ remove_current none = none
      ∧ (run_rsync cfg pr flags path st utc 0).store.current
          = set_current (remove_current st.current) (strftime_name utc) := by
  have hWF' : ∀ d ∈ st.snaps, d ≠ "incomplete" ∧ d ≠ "current" :=
    fun d hd => ⟨(hWF d hd).1, (hWF d hd).2.1⟩
  have hstats := backup_stats_listing { st with staging := true } hWF'
  by_cases hge : (backup_stats (listing { st with staging := true })).1
      ≥ cfg.backup_count
  · have holdest : (backup_stats (listing { st with staging := true })).2.2
        = minAcc "Z" st.snaps := by rw [hstats]
    have hne : strftime_name utc
        ≠ (backup_stats (listing { st with staging := true })).2.2 := by
      rw [holdest]
      intro he
      rcases List.mem_cons.1 (minAcc_mem "Z" st.snaps) with h | h
      · rw [h] at he
        exact absurd (strftime_lt_Z utc) (by rw [he]; exact lt_irrefl _)
      · rw [← he] at h
        exact hfresh h
    rw [run_rsync_zero_evict cfg pr flags path st utc hge]
    exact ⟨rfl, (List.mem_erase_of_ne hne).2 (by simp), rfl, rfl⟩
  · rw [run_rsync_zero_keep cfg pr flags path st utc (not_le.1 hge)]
    exact ⟨rfl, by simp, rfl, rfl⟩

/-- Witness for C6 at the two-snapshot store. -/
theorem c6_current_pointer_witness :
    (run_rsync cfgW prW [] "/d" stTwo utc3 0).store.current
        = some (strftime_name utc3) :=
  (c6_current_pointer cfgW prW [] "/d" stTwo utc3 (by decide) (by decide)).1

/-- C10: the dry-run option only appends `-n` to the flag set; when the
engine nevertheless exits with status zero, the program promotes the
staging area to the timestamped snapshot, updates the current pointer and
rotates exactly as in a run without the option — the store mutation is
identical whatever the flag set. -/
theorem c10_dry_run_mutates (cfg : Config) (pr : Profile) (path : String)
    (st : TargetStore) (utc : UTCTime) (v : Bool) :
    build_flags cfg v true = build_flags cfg v false ++ ["-n"]
      ∧ (run_rsync cfg pr (build_flags cfg v true) path st utc 0).store
          = (run_rsync cfg pr (build_flags cfg v false) path st utc 0).store
      ∧ (run_rsync cfg pr (build_flags cfg v true) path st utc 0).evicted
          = (run_rsync cfg pr (build_flags cfg v false) path st utc 0).evicted
      ∧ (run_rsync cfg pr (build_flags cfg v true) path st utc 0).success = true
      ∧ (run_rsync cfg pr (build_flags cfg v true) path st utc 0).store.staging
          = false
      ∧ (run_rsync cfg pr (build_flags cfg v true) path st utc 0).store.current
          = some (strftime_name utc) := by
  refine ⟨by simp [build_flags], ?_⟩
  by_cases hge : (backup_stats (listing { st with staging := true })).1
      ≥ cfg.backup_count
  · rw [run_rsync_zero_evict cfg pr (build_flags cfg v true) path st utc hge,
        run_rsync_zero_evict cfg pr (build_flags cfg v false) path st utc hge]
    exact ⟨rfl, rfl, rfl, rfl, rfl⟩
  · rw [run_rsync_zero_keep cfg pr (build_flags cfg v true) path st utc (not_le.1 hge),
        run_rsync_zero_keep cfg pr (build_flags cfg v false) path st utc (not_le.1 hge)]
    exact ⟨rfl, rfl, rfl, rfl, rfl⟩

/-- C7 counterexample: when a report email is requested and `send_email`
raises, the exception propagates out of `__main__` before
`shutil.rmtree(junkDirPath)` runs, so the quarantine area is not
deleted. -/
theorem c7_counterexample :
    (ezbackup_main cfgW false false [jW] (some "admin@example.org") true).junkDeleted
      = false := by
  rfl

/-- C7 (amended): after all targets have been processed, the run-wide
quarantine area is deleted exactly once, unconditionally with respect to
the targets' outcomes — but only provided the optional notification step
does not raise; a raising notification aborts the program before the
purge. -/
theorem c7_quarantine_amended (cfg : Config) (v d : Bool) (jobs : List Job)
    (e : Option String) (er : Bool) (h : e = none ∨ er = false) :
    (ezbackup_main cfg v d jobs e er).junkDeleted = true := by
  rcases h with rfl | rfl
  · rfl
  · cases e with
    | none => rfl
    | some x => rfl

/-- Witness for C7 (amended): a run with one failing target and no email
still purges the quarantine area. -/
theorem c7_quarantine_amended_witness :
    (ezbackup_main cfgW false false [jW, jFail] none true).junkDeleted = true :=
  c7_quarantine_amended cfgW false false [jW, jFail] none true (Or.inl rfl)

/-- C2 refuted (code bug): `flags += excludes` and
`flags += ['--link-dest=...']` in `run_rsync` mutate the flag list object
shared across the whole run, so the second target's rsync invocation also
carries the first target's exclude flag and the first target's baseline
flag, contradicting per-target flag isolation.  Evaluated on a run over
two targets where only the first profile declares an exclude pattern. -/
theorem c2_flag_leak :
    ((ezbackup_main cfgW false false [jX, jY] none false).outcomes.map
        fun o => o.command.contains (excludeFlag "secret")) = [true, true]
      ∧ ((ezbackup_main cfgW false false [jX, jY] none false).outcomes.map
          fun o => o.command.contains
            ("--link-dest=" ++ base_dir_of cfgW prX "/d1" ++ "/")) = [true, true]
      ∧ prY.excludes = [] := by
  refine ⟨?_, ?_, rfl⟩ <;> rfl

/-- A boolean conjunction over outcomes is false exactly when some
outcome failed. -/
theorem all_success_false_iff (l : List SyncOutcome) :
    ((l.all fun o => o.success) = false) ↔ ∃ o ∈ l, o.success = false := by
  induction l with
  | nil => simp
  | cons o l ih =>
    cases h : o.success <;> simp [List.all_cons, h, ih]

/-- C8: the run's overall result is false exactly when at least one
target's synchronization returned failure; one outcome is produced for
every configured (profile, path) pair, failures notwithstanding; and the
outcomes — hence the eviction decisions — of the first targets are
unchanged when further targets follow them. -/
theorem c8_aggregation (cfg : Config) (v d : Bool) (jobs js2 : List Job)
    (e : Option String) (er : Bool) (profiles : List Profile)
    (henum : jobs.map (fun j => (j.profile, j.path)) = target_list profiles) :
    ((ezbackup_main cfg v d jobs e er).success = false
        ↔ ∃ o ∈ (ezbackup_main cfg v d jobs e er).outcomes, o.success = false)
      ∧ (ezbackup_main cfg v d jobs e er).outcomes.length
          = (target_list profiles).length
      ∧ (ezbackup_main cfg v d (jobs ++ js2) e er).outcomes.take jobs.length
          = (ezbackup_main cfg v d jobs e er).outcomes := by
  refine ⟨?_, ?_, ?_⟩
  · rw [ezbackup_main_success, ezbackup_main_outcomes,
        process_targets_success_eq]
    simp only [Bool.and_true]
    exact all_success_false_iff _
  · rw [ezbackup_main_outcomes, process_targets_length, ← henum, List.length_map]
  · rw [ezbackup_main_outcomes, ezbackup_main_outcomes, process_targets_append]
    show ((process_targets cfg (build_flags cfg v d) true jobs).1 ++ _).take jobs.length
        = (process_targets cfg (build_flags cfg v d) true jobs).1
    rw [← process_targets_length cfg jobs (build_flags cfg v d) true]
    exact List.take_left _ _

/-- Witness for C8 on a one-profile configuration followed by an appended
failing job. -/
theorem c8_aggregation_witness :
    (ezbackup_main cfgW false false [jW] none false).outcomes.length
      = (target_list [prW]).length :=
  (c8_aggregation cfgW false false [jW] [jFail] none false [prW] (by decide)).2.1

/-!
Helper lemmas: path normal forms.
-/

/-- Appending the empty string is the identity on strings. -/
theorem str_append_empty (s : String) : s ++ "" = s := by
  cases s with
  | mk d =>
    show String.mk (d ++ []) = String.mk d
    rw [List.append_nil]

/-- A trailing slash does not change a path's segment list. -/
theorem pathSegsAux_append_slash (l : List Char) :
    ∀ cur, pathSegsAux cur (l ++ ['/']) = pathSegsAux cur l := by
  induction l with
  | nil =>
    intro cur
    show pathSegsAux cur ['/'] = pathSegsAux cur []
    by_cases h : cur = [] <;> simp [pathSegsAux, h]
  | cons c l ih =>
    intro cur
    show pathSegsAux cur (c :: (l ++ ['/'])) = pathSegsAux cur (c :: l)
    by_cases hc : c = '/'
    · subst hc
      by_cases h : cur = [] <;> simp [pathSegsAux, h, ih]
    · simp [pathSegsAux, hc, ih]

/-- Segment lists concatenate across an interior slash. -/
theorem pathSegsAux_append_mid (m : List Char) (l : List Char) :
    ∀ cur, pathSegsAux cur (l ++ '/' :: m)
      = pathSegsAux cur l ++ pathSegsAux [] m := by
  induction l with
  | nil =>
    intro cur
    show pathSegsAux cur ('/' :: m) = pathSegsAux cur [] ++ pathSegsAux [] m
    by_cases h : cur = [] <;> simp [pathSegsAux, h]
  | cons c l ih =>
    intro cur
    show pathSegsAux cur (c :: (l ++ '/' :: m)) = _
    by_cases hc : c = '/'
    · subst hc
      by_cases h : cur = [] <;> simp [pathSegsAux, h, ih]
    · simp [pathSegsAux, hc, ih]

/-- Appending a slash to a path string leaves its normal form
unchanged. -/
theorem normalizePath_append_slash (p : String) :
    normalizePath (p ++ "/") = normalizePath p := by
  show pathSegsAux [] (p.data ++ ['/']) = pathSegsAux [] p.data
  exact pathSegsAux_append_slash p.data []

/-- The normal form of `Y/incomplete/` is the normal form of `Y` followed
by the one segment `incomplete`. -/
theorem normalizePath_incomplete (Y : String) :
    normalizePath ((Y ++ "/") ++ "incomplete" ++ "/")
      = normalizePath Y ++ ["incomplete".data] := by
  show pathSegsAux [] (((Y.data ++ ['/']) ++ "incomplete".data) ++ ['/']) = _
  rw [pathSegsAux_append_slash, List.append_assoc]
  show pathSegsAux [] (Y.data ++ '/' :: "incomplete".data) = _
  rw [pathSegsAux_append_mid]
  rfl

/-- After `mkdir_p` of the staging directory under a store directory of
the shape `Y ++ "/"`, the store directory itself exists. -/
theorem store_dir_exists_after_mkdir (Y : String)
    (hne : normalizePath (Y ++ "/") ≠ []) :
    normalizePath (Y ++ "/")
      ∈ mkdir_p_dirs ((Y ++ "/") ++ "incomplete" ++ "/") := by
  rw [normalizePath_append_slash] at hne ⊢
  simp only [mkdir_p_dirs, normalizePath_incomplete]
  apply List.mem_map.2
  refine ⟨(normalizePath Y).length - 1, ?_, ?_⟩
  · rw [List.mem_range, List.length_append]
    have := List.length_pos.2 hne
    simp only [List.length_cons, List.length_nil]
    omega
  · have hpos := List.length_pos.2 hne
    have h1 : (normalizePath Y).length - 1 + 1 = (normalizePath Y).length := by omega
    rw [h1]
    exact List.take_left _ _

/-- C3 counterexample: on the very first run for a target (no prior
snapshots), `newest` is the empty string, the baseline flag is
`--link-dest=<storeDir>//`, and that baseline path EXISTS — it resolves
to the store directory, which `mkdir_p` created earlier in the same call
— contradicting the claim that the baseline path does not exist. -/
theorem c3_counterexample :
    (backup_stats (listing { stEmpty with staging := true })).2.1 = ""
      ∧ (run_rsync cfgW prW [] "/d" stEmpty utc3 0).flagsOut
          = ["--link-dest=" ++ base_dir_of cfgW prW "/d" ++ "/" ++ ""]
      ∧ dirExists
          (mkdir_p_dirs (base_dir_of cfgW prW "/d" ++ "incomplete" ++ "/"))
          (base_dir_of cfgW prW "/d" ++ "/"
            ++ (backup_stats (listing { stEmpty with staging := true })).2.1) := by
  refine ⟨rfl, rfl, ?_⟩
  show normalizePath _ ∈ _
  decide

/-- C3 (amended): the baseline flag appended by `run_rsync` is always
`--link-dest=<storeDir>/<newest>`.  On the very first run for a target
(zero prior snapshots) `newest` is the empty string, so the baseline path
degenerates to the store directory itself followed by a slash — a path
that exists, having just been created by `mkdir_p`, but contains no
snapshot to link from, so the engine performs a full copy.  On any
subsequent run `newest` is the lexicographically greatest existing
snapshot name. -/
theorem c3_baseline_amended (cfg : Config) (pr : Profile) (flags : List String)
    (path : String) (st : TargetStore) (utc : UTCTime) (rc : Int)
    (hWF : ∀ d ∈ st.snaps, d ≠ "incomplete" ∧ d ≠ "current")
    (hbase : normalizePath (base_dir_of cfg pr path) ≠ []) :
    (run_rsync cfg pr flags path st utc rc).flagsOut
        = flags ++ pr.excludes.map excludeFlag
            ++ ["--link-dest=" ++ base_dir_of cfg pr path ++ "/"
                 ++ (backup_stats (listing { st with staging := true })).2.1]
      ∧ (st.snaps = [] →
          (backup_stats (listing { st with staging := true })).2.1 = ""
            ∧ dirExists
                (mkdir_p_dirs (base_dir_of cfg pr path ++ "incomplete" ++ "/"))
                (base_dir_of cfg pr path ++ "/"
                  ++ (backup_stats (listing { st with staging := true })).2.1))
      ∧ (st.snaps ≠ [] →
          (backup_stats (listing { st with staging := true })).2.1 ∈ st.snaps
            ∧ ∀ x ∈ st.snaps,
                x.data ≤ ((backup_stats (listing { st with staging := true })).2.1).data) := by
  have hstats := backup_stats_listing { st with staging := true } hWF
  have hflags : (run_rsync cfg pr flags path st utc rc).flagsOut
      = flags_after cfg pr flags path st := by
    by_cases h : rc = 0
    · subst h
      by_cases hge : (backup_stats (listing { st with staging := true })).1
          ≥ cfg.backup_count
      · rw [run_rsync_zero_evict cfg pr flags path st utc hge]
      · rw [run_rsync_zero_keep cfg pr flags path st utc (not_le.1 hge)]
    · rw [run_rsync_fail cfg pr flags path st utc h]
  refine ⟨hflags, ?_, ?_⟩
  · intro hempty
    have hnew : (backup_stats (listing { st with staging := true })).2.1 = "" := by
      rw [hstats]
      show maxAcc "" st.snaps = ""
      rw [hempty]
      rfl
    refine ⟨hnew, ?_⟩
    rw [hnew]
    show normalizePath (base_dir_of cfg pr path ++ "/" ++ "")
        ∈ mkdir_p_dirs (base_dir_of cfg pr path ++ "incomplete" ++ "/")
    rw [str_append_empty]
    unfold base_dir_of at hbase ⊢
    rw [normalizePath_append_slash]
    exact store_dir_exists_after_mkdir _ hbase
  · intro hne
    constructor
    · rw [hstats]
      exact maxAcc_empty_mem hne
    · intro x hx
      rw [hstats]
      exact le_maxAcc_of_mem hx

/-- Witness for C3 (amended) on the two-snapshot store: the baseline is
the lexicographically greatest snapshot name. -/
theorem c3_baseline_amended_witness :
    (backup_stats (listing { stTwo with staging := true })).2.1 ∈ stTwo.snaps :=
  ((c3_baseline_amended cfgW prW [] "/d" stTwo utc3 0 (by decide)
      (by decide)).2.2 (by decide)).1

end EZBackup
